import Mathlib

/-!
# Verification of the call-eligibility / daily-queue subsystem

Shallow embedding of the outbound-calling core of the repository:

* `should_call_phone_number` (migration `004_call_frequency_management.sql`,
  redefined by migration `009_fix_max_calls_enforcement.sql`),
* `record_call_attempt` and the `vapi_calls` trigger (migration 004),
* `preload_daily_contacts` / `get_next_call_batch`
  (migrations `020_daily_call_queue_system.sql` and 021),
* the daily-preload edge function and the dispatch edge function
  (capacity clamp, schedule check, `sendContactsToN8N`),
* `should_call_now` (migration `010_granular_weekend_scheduling.sql`),
* the analysis write-back of `process-call-analysis/index.ts`.

Time is modelled as a `Nat` count of minutes since an epoch midnight:
`t / 1440` is the calendar day, `t % 1440` the time of day and
`(t / 1440) % 7` the day of week with `0 = Sunday` (epoch day 0 is a
Sunday).  Cooldown durations configured in hours become `hours * 60`
minutes.  SQL `NULL`able columns become `Option`, SQL rows become
structures, tables become lists of rows.
-/

namespace AgentWizard

/-- Minutes per day. -/
def minutesPerDay : Nat := 1440

/-- Calendar day of a timestamp (SQL `t::DATE`). -/
def dayOf (t : Nat) : Nat := t / minutesPerDay

/-- Time of day in minutes (SQL `t::TIME`). -/
def timeOf (t : Nat) : Nat := t % minutesPerDay

/-- Day of week, `0 = Sunday, …, 6 = Saturday` (SQL `EXTRACT(DOW …)`). -/
def dowOf (t : Nat) : Nat := dayOf t % 7

/-- Start of the calendar day containing `t` (SQL `date_trunc('day', t)`). -/
def dayStart (t : Nat) : Nat := dayOf t * minutesPerDay

/-- One row of the `call_attempts` table (migration 004): one row per
`(phone_number, call_date)` with the per-day counter and cooldown. -/
structure CallAttemptRow where
  phoneNumber : String
  callDate : Nat
  attemptCount : Nat
  lastAttemptAt : Nat
  lastCallStatus : Option String
  lastEndedReason : Option String
  cooldownUntil : Option Nat
  createdAt : Nat
deriving Repr, DecidableEq

/-- One row of the `phone_number_history` table (migration 004). -/
structure HistoryRow where
  phoneNumber : String
  totalAttempts : Nat
  lastSuccessfulCall : Option Nat
  lastPickupCall : Option Nat
  permanentDnc : Bool
  dncReason : Option String
deriving Repr, DecidableEq

/-- One row of the `vapi_calls` table, restricted to the columns the
embedded functions read (phone, status, timing, ended reason and the
analysis flag written by `process-call-analysis`). -/
structure VapiCallRow where
  callId : String
  phoneNumber : String
  status : String
  endedReason : Option String
  startedAt : Nat
  callType : String
  askedExplicitlyToNotCallAgain : Bool
deriving Repr, DecidableEq

/-- The `call_frequency_settings` rows of migration 004, with the
hard-coded defaults the SQL declares for each `setting_name`. -/
structure FrequencySettings where
  defaultCooldownHours : Nat := 24
  noPickupCooldownHours : Nat := 72
  failedConnectionCooldownHours : Nat := 6
  customerEndedCooldownHours : Nat := 168
  maxAttemptsPerDay : Nat := 1
  maxTotalAttempts : Nat := 5
  callWindowStart : Nat := 9 * 60
  callWindowEnd : Nat := 18 * 60
  enabledDays : List Nat := [1, 2, 3, 4, 5]
deriving Repr, DecidableEq

/-- Mutable database state shared by the attempt ledger functions. -/
structure LedgerState where
  attempts : List CallAttemptRow
  history : List HistoryRow
deriving Repr, DecidableEq

/-- Result row of `should_call_phone_number` as defined in migration 004:
`(can_call, reason, cooldown_until, attempts_today, total_attempts)`. -/
structure EligibilityResult where
  canCall : Bool
  reason : String
  cooldownUntil : Option Nat
  attemptsToday : Nat
  totalAttempts : Nat
deriving Repr, DecidableEq

/-- `should_call_phone_number` from migration 004: permanent DNC, enabled
day, time window, cooldown of today's attempt row, daily cap, total cap,
in that order, first failure short-circuiting with its reason string. -/
def shouldCallPhoneNumber (s : FrequencySettings) (db : LedgerState)
    (phone : String) (now : Nat) : EligibilityResult :=
  let permanentDnc := ((db.history.find? (fun h => h.phoneNumber = phone)).map
    (fun h => h.permanentDnc)).getD false
  if permanentDnc then
    ⟨false, "Permanent Do Not Call", none, 0, 0⟩
  else if ¬ s.enabledDays.contains (dowOf now) then
    ⟨false, "Outside calling days", none, 0, 0⟩
  else if timeOf now < s.callWindowStart ∨ timeOf now > s.callWindowEnd then
    ⟨false, "Outside calling hours", none, 0, 0⟩
  else
    let todayRow := db.attempts.find? (fun a =>
      a.phoneNumber = phone ∧ a.callDate = dayOf now)
    let attemptsToday := (todayRow.map (fun a => a.attemptCount)).getD 0
    let cooldownUntil := todayRow.bind (fun a => a.cooldownUntil)
    let totalAttempts := ((db.history.find? (fun h => h.phoneNumber = phone)).map
      (fun h => h.totalAttempts)).getD 0
    match cooldownUntil with
    | some c =>
      if c > now then
        ⟨false, "In cooldown period", some c, attemptsToday, totalAttempts⟩
      else if attemptsToday ≥ s.maxAttemptsPerDay then
        ⟨false, "Daily limit reached", none, attemptsToday, totalAttempts⟩
      else if totalAttempts ≥ s.maxTotalAttempts then
        ⟨false, "Total limit reached", none, attemptsToday, totalAttempts⟩
      else
        ⟨true, "OK", none, attemptsToday, totalAttempts⟩
    | none =>
      if attemptsToday ≥ s.maxAttemptsPerDay then
        ⟨false, "Daily limit reached", none, attemptsToday, totalAttempts⟩
      else if totalAttempts ≥ s.maxTotalAttempts then
        ⟨false, "Total limit reached", none, attemptsToday, totalAttempts⟩
      else
        ⟨true, "OK", none, attemptsToday, totalAttempts⟩

/-- Case-insensitive substring test, embedding SQL `a ILIKE '%pat%'`. -/
def ilikeContains (s pat : String) : Bool :=
  decide ((pat.toList.map Char.toLower) <:+: (s.toList.map Char.toLower))

/-- Cooldown-hour selection of `record_call_attempt` (migration 004):
the decision table keyed on the ended reason.  A SQL `NULL` reason falls
through every branch (`NULL IN (…)`, `NULL ILIKE …` and `NULL = …` are
all not true) into the default cooldown. -/
def cooldownHoursFor (s : FrequencySettings) (endedReason : Option String) : Nat :=
  match endedReason with
  | none => s.defaultCooldownHours
  | some r =>
    if r = "customer-did-not-answer" ∨ r = "voicemail" ∨ r = "customer-busy" then
      s.noPickupCooldownHours
    else if ilikeContains r "twilio" ∨ ilikeContains r "connection" ∨
        ilikeContains r "failed" then
      s.failedConnectionCooldownHours
    else if r = "customer-ended-call" then
      s.customerEndedCooldownHours
    else
      s.defaultCooldownHours

/-- The ended reasons that update `last_successful_call`
(`customer-ended-call` or `assistant-ended-call`). -/
def isSuccessReason (endedReason : Option String) : Bool :=
  match endedReason with
  | none => false
  | some r => r = "customer-ended-call" ∨ r = "assistant-ended-call"

/-- The ended reasons that update `last_pickup_call`: any reason that is
present and not in the no-pickup list (a SQL `NULL NOT IN (…)` is not
true, so a missing reason keeps the old value). -/
def isPickupReason (endedReason : Option String) : Bool :=
  match endedReason with
  | none => false
  | some r => ¬ (r = "customer-did-not-answer" ∨ r = "voicemail" ∨
      r = "customer-busy" ∨ r = "twilio-failed-to-connect-call")

/-- `record_call_attempt` from migration 004: pick the cooldown from the
decision table, upsert the `(phone, day)` row of `call_attempts`
(insert at count 1 / increment and overwrite on conflict), then upsert
`phone_number_history` (insert at total 1 / increment on conflict,
conditionally refreshing the success and pickup timestamps).  The
history upsert never touches `permanent_dnc`. -/
def recordCallAttempt (s : FrequencySettings) (db : LedgerState)
    (phone : String) (callStatus : String) (endedReason : Option String)
    (callTime : Nat) : LedgerState :=
  let cooldownUntil := callTime + cooldownHoursFor s endedReason * 60
  let hasAttemptRow := db.attempts.any (fun a =>
    a.phoneNumber = phone ∧ a.callDate = dayOf callTime)
  let attempts :=
    if hasAttemptRow then
      db.attempts.map (fun a =>
        if a.phoneNumber = phone ∧ a.callDate = dayOf callTime then
          { a with attemptCount := a.attemptCount + 1,
                   lastAttemptAt := callTime,
                   lastCallStatus := some callStatus,
                   lastEndedReason := endedReason,
                   cooldownUntil := some cooldownUntil }
        else a)
    else
      db.attempts ++ [{ phoneNumber := phone, callDate := dayOf callTime,
                        attemptCount := 1, lastAttemptAt := callTime,
                        lastCallStatus := some callStatus,
                        lastEndedReason := endedReason,
                        cooldownUntil := some cooldownUntil,
                        createdAt := callTime }]
  let hasHistoryRow := db.history.any (fun h => h.phoneNumber = phone)
  let history :=
    if hasHistoryRow then
      db.history.map (fun h =>
        if h.phoneNumber = phone then
          { h with totalAttempts := h.totalAttempts + 1,
                   lastSuccessfulCall :=
                     if isSuccessReason endedReason then some callTime
                     else h.lastSuccessfulCall,
                   lastPickupCall :=
                     if isPickupReason endedReason then some callTime
                     else h.lastPickupCall }
        else h)
    else
      db.history ++ [{ phoneNumber := phone, totalAttempts := 1,
                       lastSuccessfulCall := none, lastPickupCall := none,
                       permanentDnc := false, dncReason := none }]
  ⟨attempts, history⟩

/-- Per-day attempt count an outside observer reads back for
`(phone, day)` — `0` when no row exists. -/
def attemptCountOf (db : LedgerState) (phone : String) (day : Nat) : Nat :=
  ((db.attempts.find? (fun a => a.phoneNumber = phone ∧ a.callDate = day)).map
    (fun a => a.attemptCount)).getD 0

/-- Stored `cooldown_until` of the `(phone, day)` attempt row. -/
def cooldownOf (db : LedgerState) (phone : String) (day : Nat) : Option Nat :=
  (db.attempts.find? (fun a => a.phoneNumber = phone ∧ a.callDate = day)).bind
    (fun a => a.cooldownUntil)

/-- Lifetime `total_attempts` read back for a phone — `0` when no
history row exists. -/
def totalAttemptsOf (db : LedgerState) (phone : String) : Nat :=
  ((db.history.find? (fun h => h.phoneNumber = phone)).map
    (fun h => h.totalAttempts)).getD 0

/-- `permanent_dnc` read back for a phone — `false` when no row exists. -/
def permanentDncOf (db : LedgerState) (phone : String) : Bool :=
  ((db.history.find? (fun h => h.phoneNumber = phone)).map
    (fun h => h.permanentDnc)).getD false

/-- Result row of `should_call_phone_number` as redefined in migration
009: `(should_call, reason, attempts_today, total_attempts,
last_attempt, cooldown_until)`. -/
structure EligibilityResult009 where
  shouldCall : Bool
  reason : String
  attemptsToday : Nat
  totalAttempts : Nat
  lastAttempt : Option Nat
  cooldownUntil : Option Nat
deriving Repr, DecidableEq

/-- Cooldown-hour table of the migration-009 function: a plain `CASE`
on the last `vapi_calls` ended reason (no substring matching, unlike
migration 004); `NULL` and unknown reasons take the default. -/
def cooldownHoursFor009 (s : FrequencySettings) (endedReason : Option String) : Nat :=
  match endedReason with
  | some "customer-did-not-answer" => s.noPickupCooldownHours
  | some "twilio-failed-to-connect-call" => s.failedConnectionCooldownHours
  | some "customer-ended-call" => s.customerEndedCooldownHours
  | _ => s.defaultCooldownHours

/-- Ended reason of the most recent `vapi_calls` row for a phone
(`ORDER BY started_at DESC LIMIT 1`); `none` when there is no row or the
stored reason is `NULL`. -/
def latestVapiEndedReason (calls : List VapiCallRow) (phone : String) :
    Option String :=
  ((calls.filter (fun c => c.phoneNumber = phone)).foldl
    (fun best c => match best with
      | none => some c
      | some b => if c.startedAt > b.startedAt then some c else some b)
    none).bind (fun c => c.endedReason)

/-- `should_call_phone_number` as redefined by migration
`009_fix_max_calls_enforcement.sql` — in migration order the final
definition of the function.  It counts `call_attempts` rows created
since midnight instead of reading the per-day row, takes the last ended
reason from `vapi_calls`, and checks, in order: daily cap, total cap,
time window, cooldown from the last attempt.  It never reads
`phone_number_history`, so neither `permanent_dnc` nor the enabled-day
list gates it.  (Reason strings interpolate the numeric values; times
print as minute counts here.) -/
def shouldCallPhoneNumber009 (s : FrequencySettings) (maxDailyCalls : Nat)
    (db : LedgerState) (calls : List VapiCallRow) (phone : String)
    (now : Nat) : EligibilityResult009 :=
  let todayRows := db.attempts.filter (fun a =>
    a.phoneNumber = phone ∧ a.createdAt ≥ dayStart now)
  let attemptsToday := todayRows.length
  let lastAttempt := (todayRows.map (fun a => a.createdAt)).max?
  let totalAttempts := (db.attempts.filter (fun a => a.phoneNumber = phone)).length
  let lastReason := latestVapiEndedReason calls phone
  if attemptsToday ≥ maxDailyCalls then
    ⟨false, "Daily limit reached (" ++ toString attemptsToday ++ "/" ++
      toString maxDailyCalls ++ ")", attemptsToday, totalAttempts,
      lastAttempt, none⟩
  else if totalAttempts ≥ s.maxTotalAttempts then
    ⟨false, "Total limit reached (" ++ toString totalAttempts ++ "/" ++
      toString s.maxTotalAttempts ++ ")", attemptsToday, totalAttempts,
      lastAttempt, none⟩
  else if timeOf now < s.callWindowStart ∨ timeOf now > s.callWindowEnd then
    ⟨false, "Outside calling window (" ++ toString s.callWindowStart ++ "-" ++
      toString s.callWindowEnd ++ ")", attemptsToday, totalAttempts,
      lastAttempt, none⟩
  else
    match lastAttempt with
    | some la =>
      let hours := cooldownHoursFor009 s lastReason
      if la + hours * 60 > now then
        ⟨false, "Cooldown active (" ++ toString hours ++ "h)", attemptsToday,
          totalAttempts, some la, some (la + hours * 60)⟩
      else
        ⟨true, "Ready to call", attemptsToday, totalAttempts, some la, none⟩
    | none =>
      ⟨true, "Ready to call", attemptsToday, totalAttempts, none, none⟩

/-- One row of the `daily_call_queue` table (migration 020): a queue
entry per `(queue_date, contact_id)` with priority and status string
drawn from
`{pending, sent_to_n8n, calling, completed, failed, skipped}`. -/
structure QueueEntry where
  id : Nat
  queueDate : Nat
  contactId : String
  phoneNumber : String
  priorityScore : Nat
  status : String
  sentToN8nAt : Option Nat
  skipReason : Option String
  callInitiatedAt : Option Nat
  createdAt : Nat
deriving Repr, DecidableEq

/-- `ORDER BY priority_score DESC, created_at` of `get_next_call_batch`
as a boolean `≤` for `mergeSort`. -/
def dequeueLE (a b : QueueEntry) : Bool :=
  b.priorityScore < a.priorityScore ∨
    (a.priorityScore = b.priorityScore ∧ a.createdAt ≤ b.createdAt)

/-- Predicate selecting the dequeueable rows of `get_next_call_batch`
(migration 021 version): today's date and `pending` status. -/
def isPendingFor (d : Nat) (r : QueueEntry) : Bool :=
  r.queueDate = d ∧ r.status = "pending"

/-- The `SELECT … ORDER BY priority_score DESC, created_at
LIMIT batch_size FOR UPDATE SKIP LOCKED` CTE of `get_next_call_batch`. -/
def dequeueSelection (batchSize queueDate : Nat) (q : List QueueEntry) :
    List QueueEntry :=
  ((q.filter (isPendingFor queueDate)).mergeSort dequeueLE).take batchSize

/-- The `UPDATE … SET status = 'sent_to_n8n', sent_to_n8n_at = NOW()`
applied to the selected row ids. -/
def claimRows (ids : List Nat) (now : Nat) (q : List QueueEntry) :
    List QueueEntry :=
  q.map (fun r =>
    if ids.contains r.id then
      { r with status := "sent_to_n8n", sentToN8nAt := some now }
    else r)

/-- `get_next_call_batch` (migration `021_consolidate_cooldown_logic`,
the final version): in one atomic statement, select the top
`batchSize` `pending` rows of the queue date ordered by priority
descending then creation time ascending (`FOR UPDATE SKIP LOCKED`), set
their status to `sent_to_n8n` with the dispatch timestamp, and return
them.  The whole statement is a single atomic claim-on-select, so a
concurrent pair of invocations serializes into two sequential calls of
this function. -/
def getNextCallBatch (batchSize : Nat) (queueDate : Nat) (now : Nat)
    (q : List QueueEntry) : List QueueEntry × List QueueEntry :=
  let batch := dequeueSelection batchSize queueDate q
  (batch, claimRows (batch.map (fun r => r.id)) now q)

/-- First statement of `preload_daily_contacts` (migration 020): mark
every still-`pending` row of a strictly earlier queue date as `skipped`
with reason `Expired - new day started`. -/
def expireOldPending (queueDate : Nat) (q : List QueueEntry) : List QueueEntry :=
  q.map (fun r =>
    if r.queueDate < queueDate ∧ r.status = "pending" then
      { r with status := "skipped", skipReason := some "Expired - new day started" }
    else r)

/-- `LPAD(i::text, 9, '0')`. -/
def lpad9 (i : Nat) : String :=
  let s := toString i
  String.mk (List.replicate (9 - s.length) '0') ++ s

/-- Phone of the migration-020 placeholder contact series:
`'+447' || LPAD(i::text, 9, '0')`. -/
def mockPhone (i : Nat) : String := "+447" ++ lpad9 i

/-- The two-week-cooldown `NOT EXISTS` filter of
`preload_daily_contacts`: a candidate is blocked when some
`call_attempts` row for its phone has a retained ended reason and a last
attempt inside the last 14 days. -/
def mockCooldownBlocked (attempts : List CallAttemptRow) (phone : String)
    (now : Nat) : Bool :=
  attempts.any (fun ca =>
    ca.phoneNumber = phone ∧
    (ca.lastEndedReason = some "customer-ended-call" ∨
     ca.lastEndedReason = some "voicemail" ∨
     ca.lastEndedReason = some "assistant-ended-call") ∧
    ((ca.lastAttemptAt : Int) > (now : Int) - 14 * (minutesPerDay : Int)))

/-- One placeholder row the `preload_daily_contacts` insert produces for
series value `i` (priority 100 since `last_called_at` is `NULL`; the `id`
stands in for the generated UUID). -/
def mockQueueRow (queueDate i : Nat) : QueueEntry :=
  { id := i, queueDate := queueDate, contactId := "contact_" ++ toString i,
    phoneNumber := mockPhone i, priorityScore := 100, status := "pending",
    sentToN8nAt := none, skipReason := none, callInitiatedAt := none,
    createdAt := 0 }

/-- `INSERT … ON CONFLICT (queue_date, contact_id) DO NOTHING`: fold the
new rows in, dropping each one whose key already exists. -/
def insertDoNothing (q : List QueueEntry) (rows : List QueueEntry) :
    List QueueEntry :=
  rows.foldl (fun acc r =>
    if acc.any (fun e => e.queueDate = r.queueDate ∧ e.contactId = r.contactId)
    then acc else acc ++ [r]) q

/-- The `eligible_contacts` CTE of `preload_daily_contacts`: the series
values whose placeholder phone passes the two-week cooldown filter,
capped at `LIMIT target`.  `seriesOrder` stands for the row order the
database produces for `ORDER BY priority_score DESC, RANDOM()` over
`generate_series(1, target)` — an arbitrary sequence supplied as a
parameter, since `RANDOM()` is not a function of the arguments. -/
def mockEligible (targetCount now : Nat) (seriesOrder : List Nat)
    (attempts : List CallAttemptRow) : List Nat :=
  (seriesOrder.filter (fun i =>
    1 ≤ i ∧ i ≤ targetCount ∧
      ¬ mockCooldownBlocked attempts (mockPhone i) now)).take targetCount

/-- `preload_daily_contacts` (migration 020): expire old pending rows,
return early if the date already has any entries, otherwise insert the
eligible placeholder contacts with `ON CONFLICT DO NOTHING`. -/
def preloadDailyContacts (targetCount queueDate now : Nat)
    (seriesOrder : List Nat) (attempts : List CallAttemptRow)
    (q : List QueueEntry) : (Nat × String) × List QueueEntry :=
  let q1 := expireOldPending queueDate q
  let loadedCount := (q1.filter (fun r => r.queueDate = queueDate)).length
  if loadedCount > 0 then
    ((loadedCount, "Contacts already loaded for today"), q1)
  else
    let q2 := insertDoNothing q1
      ((mockEligible targetCount now seriesOrder attempts).map
        (mockQueueRow queueDate))
    let rowCount := q2.length - q1.length
    ((rowCount, "Loaded " ++ toString rowCount ++ " contacts"), q2)

/-- Outcome of the capacity gate of one dispatch cycle (the unified
dispatch edge function): abort on exhausted capacity, abort on a zero
effective batch, or proceed with the clamped batch size. -/
inductive CapacityDecision where
  | noCapacity
  | zeroBatch
  | proceed (effectiveBatchSize : Int)
deriving Repr, DecidableEq

/-- `Math.max(0, maxDailyCalls - (outboundCompletedOrStarted + processingNow))`
of the dispatch edge function: calls already placed today plus queue
rows currently `sent_to_n8n` or `calling`, subtracted from the daily
cap. -/
def remainingCapacity (maxDailyCalls outboundToday processingNow : Int) : Int :=
  max 0 (maxDailyCalls - (outboundToday + processingNow))

/-- The capacity check and clamp of the dispatch edge function: abort
when no capacity remains, otherwise clamp the requested batch size with
`Math.max(0, Math.min(batchSize, remainingCapacity))` and abort when the
clamp yields zero. -/
def capacityGate (maxDailyCalls outboundToday processingNow batchSize : Int) :
    CapacityDecision :=
  let remaining := remainingCapacity maxDailyCalls outboundToday processingNow
  if remaining ≤ 0 then .noCapacity
  else
    let eff := max 0 (min batchSize remaining)
    if eff = 0 then .zeroBatch else .proceed eff

/-- One row of the `cron_schedules` table. -/
structure CronSchedule where
  id : Nat
  name : String
  dayType : String
  startHour : Nat
  startMinute : Nat
  endHour : Nat
  endMinute : Nat
  intervalMinutes : Nat
  isActive : Bool
deriving Repr, DecidableEq

/-- Day-type test of `should_call_now` (migration 010): `weekday` is
Mon–Fri, `weekend` is Sat+Sun, `saturday`/`sunday` the single days;
`dow` uses `0 = Sunday, …, 6 = Saturday`. -/
def dayTypeMatches (dayType : String) (dow : Nat) : Bool :=
  if dayType = "weekday" then 1 ≤ dow ∧ dow ≤ 5
  else if dayType = "weekend" then dow = 0 ∨ dow = 6
  else if dayType = "saturday" then dow = 6
  else if dayType = "sunday" then dow = 0
  else false

/-- Minute-bound edge cases of `should_call_now`: both bounds when the
window spans one hour, the start bound in the start hour, the end bound
in the end hour, otherwise any minute. -/
def minuteBoundsOK (s : CronSchedule) (hour minute : Nat) : Bool :=
  if s.startHour = s.endHour then s.startMinute ≤ minute ∧ minute ≤ s.endMinute
  else if hour = s.startHour then s.startMinute ≤ minute
  else if hour = s.endHour then minute ≤ s.endMinute
  else true

/-- Interval stride of `should_call_now`: elapsed minutes from the
window start must be an exact multiple of `interval_minutes` (computed
over the integers, as in SQL). -/
def intervalOK (s : CronSchedule) (hour minute : Nat) : Bool :=
  (((hour : Int) - (s.startHour : Int)) * 60 +
    ((minute : Int) - (s.startMinute : Int))) % (s.intervalMinutes : Int) = 0

/-- The full `WHERE` clause of the `should_call_now` schedule loop. -/
def scheduleMatches (dow hour minute : Nat) (s : CronSchedule) : Bool :=
  s.isActive ∧ (s.startHour ≤ hour ∧ hour ≤ s.endHour) ∧
    minuteBoundsOK s hour minute ∧ intervalOK s hour minute ∧
    dayTypeMatches s.dayType dow

/-- `ORDER BY` priority of `should_call_now`: `saturday`/`sunday`
first, then `weekday`, then `weekend`, anything else last. -/
def dayTypePriority (dayType : String) : Nat :=
  if dayType = "saturday" then 1
  else if dayType = "sunday" then 1
  else if dayType = "weekday" then 2
  else if dayType = "weekend" then 3
  else 4

/-- Lexicographic `≤` on `(day-type priority, start_hour, start_minute)`
— the `ORDER BY` key of `should_call_now`. -/
def scheduleKeyLE (a b : CronSchedule) : Bool :=
  dayTypePriority a.dayType < dayTypePriority b.dayType ∨
    (dayTypePriority a.dayType = dayTypePriority b.dayType ∧
      (a.startHour < b.startHour ∨
        (a.startHour = b.startHour ∧ a.startMinute ≤ b.startMinute)))

/-- `ORDER BY … LIMIT 1`: the key-minimal element of the matching
schedules (ties broken toward the earlier row, which SQL leaves
unspecified). -/
def pickSchedule : List CronSchedule → Option CronSchedule
  | [] => none
  | s :: rest =>
    match pickSchedule rest with
    | none => some s
    | some b => some (if scheduleKeyLE s b then s else b)

/-- `should_call_now` (migration 010): short-circuit to no-call when the
`calling_enabled` setting is off, otherwise return the priority-minimal
active schedule matching the current day/hour/minute, if any. -/
def shouldCallNow (callingEnabled : Bool) (schedules : List CronSchedule)
    (dow hour minute : Nat) : Option CronSchedule :=
  if ¬ callingEnabled then none
  else pickSchedule (schedules.filter (scheduleMatches dow hour minute))

/-- Result of the `fetch` to the n8n webhook, as the dispatch edge
function observes it: an HTTP status, or a thrown network error. -/
inductive WebhookOutcome where
  | http (status : Nat)
  | networkError
deriving Repr, DecidableEq

/-- The failure condition of `sendContactsToN8N`: any network error, or
any status outside `[200, 300)`. -/
def webhookFailed : WebhookOutcome → Bool
  | .http status => status < 200 ∨ status ≥ 300
  | .networkError => true

/-- Result of `sendContactsToN8N`: whether the error was rethrown to the
caller (who turns it into a reported HTTP 500), and the queue state. -/
structure SendOutcome where
  errorPropagated : Bool
  queue : List QueueEntry
deriving Repr, DecidableEq

/-- `sendContactsToN8N` of the dispatch edge function (non-dry-run
path): on webhook success mark the batch's `sent_to_n8n` rows of today
`calling`; on failure (non-2xx or thrown fetch error) revert them to
`pending` with skip reason `n8n_webhook_failed` and rethrow. -/
def sendContactsToN8N (outcome : WebhookOutcome) (batchPhones : List String)
    (today now : Nat) (q : List QueueEntry) : SendOutcome :=
  if webhookFailed outcome then
    { errorPropagated := true,
      queue := q.map (fun r =>
        if r.queueDate = today ∧ batchPhones.contains r.phoneNumber ∧
            r.status = "sent_to_n8n" then
          { r with status := "pending", skipReason := some "n8n_webhook_failed" }
        else r) }
  else
    { errorPropagated := false,
      queue := q.map (fun r =>
        if r.queueDate = today ∧ batchPhones.contains r.phoneNumber ∧
            r.status = "sent_to_n8n" then
          { r with status := "calling", callInitiatedAt := some now }
        else r) }

/-- A contact as fetched from the external CRM by the daily preloader. -/
structure GHLContact where
  id : String
  phone : String
deriving Repr, DecidableEq

/-- Phone normalisation of the daily preloader: a leading `0` becomes
`+44`. -/
def formatPhonePreload (p : String) : String :=
  if p.startsWith "0" then "+44" ++ p.drop 1 else p

/-- The eligibility loop of the daily preloader: skip contacts with a
short phone, keep those the cooldown check accepts, and stop as soon as
`needed` contacts are collected.  `canCall` abstracts the
`should_call_phone_number_smart` RPC (the multi-day cooldown check, a
pure function of ledger state that the preloader never changes). -/
def collectEligible (canCall : String → Bool) :
    Nat → List GHLContact → List GHLContact
  | _, [] => []
  | needed, c :: rest =>
    if c.phone.length < 8 then collectEligible canCall needed rest
    else if canCall (formatPhonePreload c.phone) then
      if needed ≤ 1 then [c]
      else c :: collectEligible canCall (needed - 1) rest
    else collectEligible canCall needed rest

/-- Queue row the daily preloader inserts for an eligible contact
(`score` abstracts `calculatePriorityScore`, which reads CRM fields and
the wall clock; the `id` stands for the generated UUID). -/
def preloadRow (score : GHLContact → Nat) (today : Nat) (c : GHLContact) :
    QueueEntry :=
  { id := 0, queueDate := today, contactId := c.id,
    phoneNumber := formatPhonePreload c.phone, priorityScore := score c,
    status := "pending", sentToN8nAt := none, skipReason := none,
    callInitiatedAt := none, createdAt := 0 }

/-- A plain `INSERT` against the `(queue_date, contact_id)` unique
constraint: the whole statement fails (and the state is unchanged) when
any new row collides with an existing key or the batch repeats a key. -/
def insertQueueRows (q : List QueueEntry) (rows : List QueueEntry) :
    Option (List QueueEntry) :=
  if rows.any (fun r => q.any (fun e =>
      e.queueDate = r.queueDate ∧ e.contactId = r.contactId)) ∨
     ¬ (rows.map (fun r => (r.queueDate, r.contactId))).Nodup then
    none
  else some (q ++ rows)

/-- Response of the daily preloader, by exit path. -/
inductive PreloadResponse where
  | alreadyLoaded (count : Nat)
  | noContacts
  | insertFailed
  | loaded (insertedCount queueCount : Nat)
deriving Repr, DecidableEq

/-- The daily preloader edge function: return at once when today already
has at least 100 entries; report when the CRM returned nothing; else
collect the shortfall's worth of eligible contacts and insert them
(`500` response when the insert throws). -/
def preloadDailyEdge (canCall : String → Bool) (score : GHLContact → Nat)
    (contacts : List GHLContact) (today : Nat) (q : List QueueEntry) :
    PreloadResponse × List QueueEntry :=
  let alreadyLoaded := (q.filter (fun r => r.queueDate = today)).length
  if 100 ≤ alreadyLoaded then (.alreadyLoaded alreadyLoaded, q)
  else if contacts = [] then (.noContacts, q)
  else
    let eligible := collectEligible canCall (100 - alreadyLoaded) contacts
    if eligible = [] then
      (.loaded 0 alreadyLoaded, q)
    else
      match insertQueueRows q (eligible.map (preloadRow score today)) with
      | none => (.insertFailed, q)
      | some q' =>
        (.loaded eligible.length
          ((q'.filter (fun r => r.queueDate = today)).length), q')

/-- The fields of the AI transcript analysis that the write-back of
`process-call-analysis` consumes. -/
structure AnalysisOutput where
  userSentiment : String
  askedExplicitlyToNotCallAgain : Bool
  callWithAgentBooked : Bool
deriving Repr, DecidableEq

/-- Whole-system state: attempt ledger, provider call rows, daily
queue. -/
structure SystemState where
  ledger : LedgerState
  vapiCalls : List VapiCallRow
  queue : List QueueEntry
deriving Repr, DecidableEq

/-- Database effect of one `process-call-analysis` iteration for a call:
write the analysis fields (among them
`asked_explicitly_to_not_call_again`) onto the `vapi_calls` row — which
fires the migration-004 `AFTER UPDATE` trigger, re-recording the attempt
— and move today's `sent_to_n8n` queue row of an outbound call to
`completed`.  No statement of the function touches
`phone_number_history`. -/
def processCallAnalysis (s : FrequencySettings) (analysis : AnalysisOutput)
    (callId : String) (st : SystemState) : SystemState :=
  match st.vapiCalls.find? (fun c => c.callId = callId) with
  | none => st
  | some call =>
    let vapiCalls := st.vapiCalls.map (fun c =>
      if c.callId = callId then
        { c with askedExplicitlyToNotCallAgain :=
            analysis.askedExplicitlyToNotCallAgain }
      else c)
    let ledger := recordCallAttempt s st.ledger call.phoneNumber call.status
      call.endedReason call.startedAt
    let queue :=
      if call.callType = "outbound" then
        st.queue.map (fun r =>
          if r.phoneNumber = call.phoneNumber ∧
              r.queueDate = dayOf call.startedAt ∧
              r.status = "sent_to_n8n" then
            { r with status := "completed" }
          else r)
      else st.queue
    ⟨ledger, vapiCalls, queue⟩

/-! ## Concrete states used by the divergence theorems -/

/-- A phone number whose history carries the permanent do-not-call
flag and nothing else. -/
def dncExampleState : LedgerState :=
  ⟨[], [{ phoneNumber := "+447700900123", totalAttempts := 0,
          lastSuccessfulCall := none, lastPickupCall := none,
          permanentDnc := true, dncReason := some "customer requested" }]⟩

/-- The ledger after recording a `customer-ended-call` attempt for a
fresh number at Tuesday 10:00 (minute 3480 = day 2, 10:00; epoch day 0
is a Sunday). -/
def c3Recorded : LedgerState :=
  recordCallAttempt {} ⟨[], []⟩ "+447700900123" "ended"
    (some "customer-ended-call") 3480

/-- A completed outbound provider call awaiting transcript analysis. -/
def c9Call : VapiCallRow :=
  { callId := "call-1", phoneNumber := "+447700900123", status := "ended",
    endedReason := some "customer-ended-call", startedAt := 3480,
    callType := "outbound", askedExplicitlyToNotCallAgain := false }

/-- System state around `c9Call`: some history without the DNC flag. -/
def c9State : SystemState :=
  ⟨⟨[], [{ phoneNumber := "+447700900123", totalAttempts := 3,
           lastSuccessfulCall := none, lastPickupCall := none,
           permanentDnc := false, dncReason := none }]⟩, [c9Call], []⟩

/-- Same state but with the DNC flag already latched. -/
def c9StateLatched : SystemState :=
  ⟨⟨[], [{ phoneNumber := "+447700900123", totalAttempts := 3,
           lastSuccessfulCall := none, lastPickupCall := none,
           permanentDnc := true, dncReason := some "requested" }]⟩, [c9Call], []⟩

/-- An analysis verdict where the customer explicitly asked never to be
called again. -/
def dncAnalysis : AnalysisOutput :=
  { userSentiment := "negative", askedExplicitlyToNotCallAgain := true,
    callWithAgentBooked := false }

/-! ## Helper lemmas -/

/-- `find?` commutes with a map that preserves the predicate. -/
theorem find?_map_of_pred {α : Type} (p : α → Bool) (u : α → α)
    (hu : ∀ a, p (u a) = p a) :
    ∀ l : List α, (l.map u).find? p = (l.find? p).map u
  | [] => rfl
  | a :: l => by
    by_cases h : p a = true
    · simp [List.find?_cons, hu, h]
    · rw [Bool.not_eq_true] at h
      simp [List.find?_cons, hu, h, find?_map_of_pred p u hu l]

/-- Every invocation of `record_call_attempt` bumps the lifetime
counter by exactly one. -/
theorem recordCallAttempt_totalAttempts (s : FrequencySettings)
    (db : LedgerState) (phone status : String) (reason : Option String)
    (t : Nat) :
    totalAttemptsOf (recordCallAttempt s db phone status reason t) phone =
      totalAttemptsOf db phone + 1 := by
  unfold totalAttemptsOf recordCallAttempt
  simp only []
  by_cases h : db.history.any (fun h => decide (h.phoneNumber = phone)) = true
  · rw [if_pos h]
    rw [find?_map_of_pred]
    · rcases hy : db.history.find? (fun h => decide (h.phoneNumber = phone)) with _ | y
      · rw [List.find?_eq_none] at hy
        rw [List.any_eq_true] at h
        obtain ⟨x, hx, hpx⟩ := h
        exact absurd hpx (hy x hx)
      · have hp := List.find?_some hy
        simp only [decide_eq_true_eq] at hp
        simp [hy, hp]
    · intro a
      by_cases ha : a.phoneNumber = phone <;> simp [ha]
  · rw [if_neg h]
    have hnone : db.history.find? (fun h => decide (h.phoneNumber = phone)) = none := by
      rw [List.find?_eq_none]
      intro x hx hpx
      exact h (List.any_eq_true.mpr ⟨x, hx, hpx⟩)
    rw [List.find?_append, hnone]
    simp [List.find?_cons, hnone]

/-- Every invocation of `record_call_attempt` bumps the per-day counter
by exactly one, creating the row at `1` when absent. -/
theorem recordCallAttempt_attemptCount (s : FrequencySettings)
    (db : LedgerState) (phone status : String) (reason : Option String)
    (t : Nat) :
    attemptCountOf (recordCallAttempt s db phone status reason t) phone (dayOf t) =
      attemptCountOf db phone (dayOf t) + 1 := by
  unfold attemptCountOf recordCallAttempt
  simp only []
  by_cases h : db.attempts.any
      (fun a => decide (a.phoneNumber = phone ∧ a.callDate = dayOf t)) = true
  · rw [if_pos h]
    rw [find?_map_of_pred]
    · rcases hy : db.attempts.find?
          (fun a => decide (a.phoneNumber = phone ∧ a.callDate = dayOf t)) with _ | y
      · rw [List.find?_eq_none] at hy
        rw [List.any_eq_true] at h
        obtain ⟨x, hx, hpx⟩ := h
        exact absurd hpx (hy x hx)
      · have hp := List.find?_some hy
        simp only [decide_eq_true_eq] at hp
        rw [hy]
        simp [hp.1, hp.2]
    · intro a
      by_cases ha : a.phoneNumber = phone ∧ a.callDate = dayOf t <;> simp [ha]
  · rw [if_neg h]
    have hnone : db.attempts.find?
        (fun a => decide (a.phoneNumber = phone ∧ a.callDate = dayOf t)) = none := by
      rw [List.find?_eq_none]
      intro x hx hpx
      exact h (List.any_eq_true.mpr ⟨x, hx, hpx⟩)
    rw [List.find?_append, hnone]
    simp [List.find?_cons, hnone]

/-- Every invocation of `record_call_attempt` unconditionally overwrites
`cooldown_until` of the day's row with the fresh value. -/
theorem recordCallAttempt_cooldown (s : FrequencySettings)
    (db : LedgerState) (phone status : String) (reason : Option String)
    (t : Nat) :
    cooldownOf (recordCallAttempt s db phone status reason t) phone (dayOf t) =
      some (t + cooldownHoursFor s reason * 60) := by
  unfold cooldownOf recordCallAttempt
  simp only []
  by_cases h : db.attempts.any
      (fun a => decide (a.phoneNumber = phone ∧ a.callDate = dayOf t)) = true
  · rw [if_pos h]
    rw [find?_map_of_pred]
    · rcases hy : db.attempts.find?
          (fun a => decide (a.phoneNumber = phone ∧ a.callDate = dayOf t)) with _ | y
      · rw [List.find?_eq_none] at hy
        rw [List.any_eq_true] at h
        obtain ⟨x, hx, hpx⟩ := h
        exact absurd hpx (hy x hx)
      · have hp := List.find?_some hy
        simp only [decide_eq_true_eq] at hp
        rw [hy]
        simp [hp.1, hp.2]
    · intro a
      by_cases ha : a.phoneNumber = phone ∧ a.callDate = dayOf t <;> simp [ha]
  · rw [if_neg h]
    have hnone : db.attempts.find?
        (fun a => decide (a.phoneNumber = phone ∧ a.callDate = dayOf t)) = none := by
      rw [List.find?_eq_none]
      intro x hx hpx
      exact h (List.any_eq_true.mpr ⟨x, hx, hpx⟩)
    rw [List.find?_append, hnone]
    simp [List.find?_cons, hnone]

/-! ## Claim theorems -/

/-- **C1** (code bug).  The final definition of the eligibility function
(migration 009) does not check the permanent-DNC flag at all: at a state
whose history says `permanent_dnc = true`, the migration-004 definition
returns ineligible with the permanent-DNC reason exactly as the claim
states, but its migration-009 replacement answers `should_call = true,
"Ready to call"` and also reorders the surviving checks (daily cap,
total cap, window, cooldown). -/
theorem permanentDnc_dropped_by_migration_009 :
    permanentDncOf dncExampleState "+447700900123" = true ∧
    (shouldCallPhoneNumber {} dncExampleState "+447700900123" 3480).canCall
      = false ∧
    (shouldCallPhoneNumber {} dncExampleState "+447700900123" 3480).reason
      = "Permanent Do Not Call" ∧
    (shouldCallPhoneNumber009 {} 100 dncExampleState [] "+447700900123"
      3480).shouldCall = true ∧
    (shouldCallPhoneNumber009 {} 100 dncExampleState [] "+447700900123"
      3480).reason = "Ready to call" :=
  ⟨rfl, rfl, rfl, rfl, rfl⟩

/-- **C3** (code bug).  Recording a `customer-ended-call` attempt at
Tuesday 10:00 (minute 3480) stores `cooldown_until = 3480 + 168·60` as
the claim states, but an eligibility check the next morning (minute
4920, Wednesday 10:00 — far inside the 168-hour cooldown) returns
`can_call = true, "OK"`: the migration-004 cooldown check only reads the
attempt row whose `call_date` equals the *check* date, so the stored
cooldown is invisible from the next calendar day on. -/
theorem customer_ended_cooldown_invisible_next_day :
    cooldownOf c3Recorded "+447700900123" (dayOf 3480)
      = some (3480 + 168 * 60) ∧
    dayOf 4920 = dayOf 3480 + 1 ∧
    4920 < 3480 + 168 * 60 ∧
    (shouldCallPhoneNumber {} c3Recorded "+447700900123" 4920).canCall
      = true ∧
    (shouldCallPhoneNumber {} c3Recorded "+447700900123" 4920).reason
      = "OK" := by
  refine ⟨by decide, by decide, by omega, by decide, by decide⟩

/-- **C4**.  One dispatch cycle aborts exactly when the calls already
placed today plus the in-flight queue rows meet or exceed
`max_daily_calls`, and otherwise proceeds with the requested batch size
clamped down to the remaining capacity; with `max_daily_calls = 30`, 25
placed and 3 in flight, a requested batch of 10 is clamped to 2. -/
theorem capacity_clamp (m o p b : Int) :
    (m ≤ o + p → capacityGate m o p b = .noCapacity) ∧
    (o + p < m → 0 < b →
      capacityGate m o p b = .proceed (min b (m - (o + p)))) ∧
    capacityGate 30 25 3 10 = .proceed 2 := by
  refine ⟨fun h => ?_, fun h hb => ?_, by decide⟩
  · unfold capacityGate remainingCapacity
    rw [if_pos (by omega)]
  · unfold capacityGate remainingCapacity
    rw [if_neg (by omega), if_neg (by omega)]
    congr 1
    omega

/-- Witness for `capacity_clamp` at concrete inputs. -/
theorem capacity_clamp_witness :
    capacityGate 55 25 30 10 = .noCapacity ∧
    capacityGate 30 25 3 10 = .proceed (min 10 (30 - (25 + 3))) :=
  ⟨(capacity_clamp 55 25 30 10).1 (by decide),
   (capacity_clamp 30 25 3 10).2.1 (by decide) (by decide)⟩

/-- **C9** (code bug).  Processing a transcript analysis that says the
customer explicitly asked never to be called again stores the flag on
the `vapi_calls` row but leaves `phone_number_history.permanent_dnc`
untouched — the latch is never set by this subsystem (and, conversely,
an already-latched flag is never cleared by it). -/
theorem dnc_request_not_fed_into_latch :
    ((processCallAnalysis {} dncAnalysis "call-1" c9State).vapiCalls.find?
        (fun c => c.callId = "call-1")).map
        (fun c => c.askedExplicitlyToNotCallAgain) = some true ∧
    permanentDncOf (processCallAnalysis {} dncAnalysis "call-1" c9State).ledger
      "+447700900123" = false ∧
    permanentDncOf
      (processCallAnalysis {} dncAnalysis "call-1" c9StateLatched).ledger
      "+447700900123" = true :=
  ⟨rfl, rfl, rfl⟩

/-- **C10**.  `record_call_attempt` is strictly additive: each
invocation bumps the lifetime total by exactly one, bumps (or creates
at one) the per-day counter, and unconditionally overwrites
`cooldown_until`; hence the dispatch-time `initiated` record followed by
the `vapi_calls` trigger's re-record counts one placed call twice, with
the cooldown recomputed each time. -/
theorem recordAttempt_strictly_additive (s : FrequencySettings)
    (db : LedgerState) (phone status status' : String)
    (reason reason' : Option String) (t t' : Nat) :
    totalAttemptsOf (recordCallAttempt s db phone status reason t) phone
      = totalAttemptsOf db phone + 1 ∧
    attemptCountOf (recordCallAttempt s db phone status reason t) phone (dayOf t)
      = attemptCountOf db phone (dayOf t) + 1 ∧
    cooldownOf (recordCallAttempt s db phone status reason t) phone (dayOf t)
      = some (t + cooldownHoursFor s reason * 60) ∧
    totalAttemptsOf (recordCallAttempt s
        (recordCallAttempt s db phone "initiated" none t)
        phone status' reason' t') phone
      = totalAttemptsOf db phone + 2 ∧
    cooldownOf (recordCallAttempt s
        (recordCallAttempt s db phone "initiated" none t)
        phone status' reason' t') phone (dayOf t')
      = some (t' + cooldownHoursFor s reason' * 60) := by
  refine ⟨recordCallAttempt_totalAttempts s db phone status reason t,
    recordCallAttempt_attemptCount s db phone status reason t,
    recordCallAttempt_cooldown s db phone status reason t, ?_,
    recordCallAttempt_cooldown s _ phone status' reason' t'⟩
  rw [recordCallAttempt_totalAttempts,
    recordCallAttempt_totalAttempts]

/-- **C8**.  When the webhook handoff fails — non-2xx status or thrown
network error — every queue row of the dispatched batch still in
`sent_to_n8n` for today is reverted to `pending` with the
`n8n_webhook_failed` skip reason, all other rows are untouched, and the
error is rethrown to the caller instead of being swallowed. -/
theorem webhook_failure_reverts_and_propagates (outcome : WebhookOutcome)
    (phones : List String) (today now : Nat) (q : List QueueEntry)
    (hfail : webhookFailed outcome = true) :
    (sendContactsToN8N outcome phones today now q).errorPropagated = true ∧
    (∀ r ∈ q, r.queueDate = today → phones.contains r.phoneNumber = true →
      r.status = "sent_to_n8n" →
      { r with status := "pending", skipReason := some "n8n_webhook_failed" }
        ∈ (sendContactsToN8N outcome phones today now q).queue) ∧
    (∀ r ∈ q, ¬ (r.queueDate = today ∧ phones.contains r.phoneNumber = true ∧
        r.status = "sent_to_n8n") →
      r ∈ (sendContactsToN8N outcome phones today now q).queue) := by
  unfold sendContactsToN8N
  rw [if_pos hfail]
  refine ⟨rfl, ?_, ?_⟩
  · intro r hr h1 h2 h3
    exact List.mem_map.mpr ⟨r, hr, if_pos ⟨h1, h2, h3⟩⟩
  · intro r hr hnot
    exact List.mem_map.mpr ⟨r, hr, if_neg hnot⟩

/-- A queue row claimed for dispatch, used to witness `C8`. -/
def c8Row : QueueEntry :=
  { id := 7, queueDate := 1, contactId := "c-1",
    phoneNumber := "+447700900123", priorityScore := 50,
    status := "sent_to_n8n", sentToN8nAt := some 10, skipReason := none,
    callInitiatedAt := none, createdAt := 0 }

/-- Witness for `webhook_failure_reverts_and_propagates` at a concrete
failed dispatch. -/
theorem webhook_failure_witness :
    (sendContactsToN8N .networkError ["+447700900123"] 1 20
      [c8Row]).errorPropagated = true ∧
    { c8Row with status := "pending", skipReason := some "n8n_webhook_failed" }
      ∈ (sendContactsToN8N .networkError ["+447700900123"] 1 20 [c8Row]).queue := by
  have h := webhook_failure_reverts_and_propagates .networkError
    ["+447700900123"] 1 20 [c8Row] (by decide)
  exact ⟨h.1, h.2.1 c8Row (by decide) rfl (by decide) rfl⟩

/-- Anything already in the accumulator survives
`INSERT … ON CONFLICT DO NOTHING`. -/
theorem mem_insertDoNothing_of_mem {x : QueueEntry} :
    ∀ (rows : List QueueEntry) (acc : List QueueEntry), x ∈ acc →
      x ∈ insertDoNothing acc rows
  | [], _, hx => hx
  | r :: rows, acc, hx => by
    unfold insertDoNothing
    rw [List.foldl_cons]
    refine mem_insertDoNothing_of_mem rows _ ?_
    by_cases hc : (acc.any (fun e =>
        decide (e.queueDate = r.queueDate ∧ e.contactId = r.contactId))) = true
    · rw [if_pos hc]
      exact hx
    · rw [if_neg hc]
      exact List.mem_append_left _ hx

/-- Everything `INSERT … ON CONFLICT DO NOTHING` produces came from the
accumulator or from the inserted rows. -/
theorem mem_of_mem_insertDoNothing {x : QueueEntry} :
    ∀ (rows : List QueueEntry) (acc : List QueueEntry),
      x ∈ insertDoNothing acc rows → x ∈ acc ∨ x ∈ rows
  | [], _, hx => Or.inl hx
  | r :: rows, acc, hx => by
    unfold insertDoNothing at hx
    rw [List.foldl_cons] at hx
    have := mem_of_mem_insertDoNothing rows _ hx
    rcases this with h | h
    · by_cases hc : (acc.any (fun e =>
          decide (e.queueDate = r.queueDate ∧ e.contactId = r.contactId))) = true
      · rw [if_pos hc] at h
        exact Or.inl h
      · rw [if_neg hc] at h
        rcases List.mem_append.mp h with h | h
        · exact Or.inl h
        · exact Or.inr (List.mem_cons.mpr (Or.inl (List.mem_singleton.mp h)))
    · exact Or.inr (List.mem_cons_of_mem r h)

/-- **C6**.  Day rollover: the SQL preload first marks every still
`pending` row of a strictly earlier queue date as `skipped` with the
expiry reason (and its output holds no earlier-dated pending row at
all), and `get_next_call_batch` only ever returns rows whose
`queue_date` equals the requested date — so expired entries are never
dequeued. -/
theorem day_rollover_expires_old_pending (target queueDate now : Nat)
    (seriesOrder : List Nat) (attempts : List CallAttemptRow)
    (q : List QueueEntry) (n d tnow : Nat) (q' : List QueueEntry) :
    (∀ r ∈ q, r.queueDate < queueDate → r.status = "pending" →
      { r with status := "skipped",
               skipReason := some "Expired - new day started" }
        ∈ (preloadDailyContacts target queueDate now seriesOrder attempts q).2) ∧
    (∀ r ∈ (preloadDailyContacts target queueDate now seriesOrder attempts q).2,
      r.queueDate < queueDate → r.status ≠ "pending") ∧
    (∀ r ∈ (getNextCallBatch n d tnow q').1,
      r.queueDate = d ∧ r.status = "pending") := by
  have hout : (preloadDailyContacts target queueDate now seriesOrder attempts q).2
      = expireOldPending queueDate q ∨
      (preloadDailyContacts target queueDate now seriesOrder attempts q).2
      = insertDoNothing (expireOldPending queueDate q)
          ((mockEligible target now seriesOrder attempts).map
            (mockQueueRow queueDate)) := by
    unfold preloadDailyContacts
    by_cases hc : ((expireOldPending queueDate q).filter
        (fun r => decide (r.queueDate = queueDate))).length > 0
    · left
      simp [hc]
    · right
      simp [hc]
  have hexp : ∀ r ∈ q, r.queueDate < queueDate → r.status = "pending" →
      { r with status := "skipped",
               skipReason := some "Expired - new day started" }
        ∈ expireOldPending queueDate q := by
    intro r hr h1 h2
    exact List.mem_map.mpr ⟨r, hr, if_pos ⟨h1, h2⟩⟩
  have hnold : ∀ r ∈ expireOldPending queueDate q,
      r.queueDate < queueDate → r.status ≠ "pending" := by
    intro x hx hold
    obtain ⟨r, _, hu⟩ := List.mem_map.mp hx
    by_cases hc : r.queueDate < queueDate ∧ r.status = "pending"
    · rw [if_pos hc] at hu
      rw [← hu]
      simp
    · rw [if_neg hc] at hu
      subst hu
      intro hpend
      exact hc ⟨hold, hpend⟩
  refine ⟨?_, ?_, ?_⟩
  · intro r hr h1 h2
    rcases hout with h | h <;> rw [h]
    · exact hexp r hr h1 h2
    · exact mem_insertDoNothing_of_mem _ _ (hexp r hr h1 h2)
  · intro r hr hold
    rcases hout with h | h
    · rw [h] at hr
      exact hnold r hr hold
    · rw [h] at hr
      rcases mem_of_mem_insertDoNothing _ _ hr with h2 | h2
      · exact hnold r h2 hold
      · obtain ⟨i, _, hi⟩ := List.mem_map.mp h2
        rw [← hi] at hold
        exact absurd hold (by simp [mockQueueRow])
  · intro r hr
    have h1 : r ∈ (q'.filter (isPendingFor d)).mergeSort dequeueLE :=
      List.mem_of_mem_take hr
    have h2 : r ∈ q'.filter (isPendingFor d) := List.mem_mergeSort.mp h1
    have h3 := (List.mem_filter.mp h2).2
    unfold isPendingFor at h3
    simpa using h3

/-- A yesterday's still-pending queue row, used to witness `C6`. -/
def staleRow : QueueEntry :=
  { id := 3, queueDate := 0, contactId := "c-0",
    phoneNumber := "+447700900001", priorityScore := 80,
    status := "pending", sentToN8nAt := none, skipReason := none,
    callInitiatedAt := none, createdAt := 0 }

/-- Witness for `day_rollover_expires_old_pending`: preloading day 1
skips the day-0 pending row, and the preloaded queue holds no
earlier-dated pending row. -/
theorem day_rollover_witness :
    { staleRow with status := "skipped",
                    skipReason := some "Expired - new day started" }
      ∈ (preloadDailyContacts 100 1 1500 [] [] [staleRow]).2 ∧
    staleRow.queueDate < 1 ∧ staleRow.status = "pending" := by
  refine ⟨?_, by decide, rfl⟩
  exact (day_rollover_expires_old_pending 100 1 1500 [] [] [staleRow]
    5 1 1500 []).1 staleRow (List.mem_singleton.mpr rfl) (by decide) rfl

/-- `scheduleKeyLE` is reflexive. -/
theorem scheduleKeyLE_refl (a : CronSchedule) : scheduleKeyLE a a = true := by
  simp [scheduleKeyLE]

/-- `scheduleKeyLE` is total. -/
theorem scheduleKeyLE_total (a b : CronSchedule) :
    scheduleKeyLE a b = true ∨ scheduleKeyLE b a = true := by
  simp only [scheduleKeyLE, Bool.decide_or, Bool.decide_and, Bool.or_eq_true,
    Bool.and_eq_true, decide_eq_true_eq]
  omega

/-- `scheduleKeyLE` is transitive. -/
theorem scheduleKeyLE_trans {a b c : CronSchedule}
    (h1 : scheduleKeyLE a b = true) (h2 : scheduleKeyLE b c = true) :
    scheduleKeyLE a c = true := by
  simp only [scheduleKeyLE, Bool.decide_or, Bool.decide_and, Bool.or_eq_true,
    Bool.and_eq_true, decide_eq_true_eq] at h1 h2 ⊢
  omega

/-- `pickSchedule` returns an element of its input. -/
theorem pickSchedule_mem : ∀ {l : List CronSchedule} {w : CronSchedule},
    pickSchedule l = some w → w ∈ l
  | [], w, h => by simp [pickSchedule] at h
  | s :: rest, w, h => by
    rw [pickSchedule] at h
    cases hrest : pickSchedule rest with
    | none =>
      rw [hrest] at h
      exact (Option.some.injEq _ _ ▸ h) ▸ List.mem_cons_self s rest
    | some b =>
      rw [hrest] at h
      have h' : some (if scheduleKeyLE s b = true then s else b) = some w := h
      by_cases hsb : scheduleKeyLE s b = true
      · rw [if_pos hsb] at h'
        cases h'
        exact List.mem_cons_self s rest
      · rw [if_neg hsb] at h'
        cases h'
        exact List.mem_cons_of_mem s (pickSchedule_mem hrest)

/-- `pickSchedule` returns `none` only on the empty list. -/
theorem pickSchedule_eq_none : ∀ {l : List CronSchedule},
    pickSchedule l = none → l = []
  | [], _ => rfl
  | s :: rest, h => by
    rw [pickSchedule] at h
    cases hrest : pickSchedule rest with
    | none => rw [hrest] at h; cases h
    | some b => rw [hrest] at h; cases h

/-- `pickSchedule` returns a key-minimal element. -/
theorem pickSchedule_min : ∀ {l : List CronSchedule} {w : CronSchedule},
    pickSchedule l = some w → ∀ s ∈ l, scheduleKeyLE w s = true
  | [], w, h => by simp [pickSchedule] at h
  | s :: rest, w, h => by
    rw [pickSchedule] at h
    cases hrest : pickSchedule rest with
    | none =>
      rw [hrest] at h
      have hw : w = s := by cases h; rfl
      have hnil := pickSchedule_eq_none hrest
      subst hw; subst hnil
      intro t ht
      rw [List.mem_singleton.mp ht]
      exact scheduleKeyLE_refl _
    | some b =>
      rw [hrest] at h
      have h2 : some (if scheduleKeyLE s b = true then s else b) = some w := h
      have hb := pickSchedule_min hrest
      by_cases hsb : scheduleKeyLE s b = true
      · rw [if_pos hsb] at h2
        have hw : w = s := by cases h2; rfl
        subst hw
        intro t ht
        rcases List.mem_cons.mp ht with h' | h'
        · rw [h']
          exact scheduleKeyLE_refl _
        · exact scheduleKeyLE_trans hsb (hb t h')
      · rw [if_neg hsb] at h2
        have hw : w = b := by cases h2; rfl
        subst hw
        intro t ht
        rcases List.mem_cons.mp ht with h' | h'
        · subst h'
          rcases scheduleKeyLE_total w t with h'' | h''
          · exact h''
          · exact absurd h'' hsb
        · exact hb t h'

/-- The blanket weekend window of the claim's example:
10:00–18:00 every 10 minutes. -/
def weekendWindow : CronSchedule :=
  { id := 1, name := "weekend", dayType := "weekend", startHour := 10,
    startMinute := 0, endHour := 18, endMinute := 0, intervalMinutes := 10,
    isActive := true }

/-- The narrower Saturday override of the claim's example:
10:00–11:00 every 5 minutes. -/
def saturdayWindow : CronSchedule :=
  { id := 2, name := "saturday", dayType := "saturday", startHour := 10,
    startMinute := 0, endHour := 11, endMinute := 0, intervalMinutes := 5,
    isActive := true }

/-- **C7**.  Whenever `should_call_now` selects a window, that window
matches the current moment and is minimal among all matching windows
under the `ORDER BY` key — day-type specificity (`saturday`/`sunday`
before `weekday` before `weekend`) first, then earliest start time; in
particular, at Saturday 10:05 with both example windows active, the
selected window is the `saturday` one. -/
theorem schedule_tiebreak_most_specific :
    (∀ (enabled : Bool) (schedules : List CronSchedule)
        (dow hour minute : Nat) (w : CronSchedule),
      shouldCallNow enabled schedules dow hour minute = some w →
      scheduleMatches dow hour minute w = true ∧
      ∀ s ∈ schedules, scheduleMatches dow hour minute s = true →
        scheduleKeyLE w s = true) ∧
    shouldCallNow true [weekendWindow, saturdayWindow] 6 10 5
      = some saturdayWindow := by
  constructor
  · intro enabled schedules dow hour minute w h
    unfold shouldCallNow at h
    by_cases he : enabled = true
    · rw [if_neg (by simp [he])] at h
      have hw := pickSchedule_mem h
      have hmatch := (List.mem_filter.mp hw).2
      refine ⟨hmatch, ?_⟩
      intro s hs hsm
      exact pickSchedule_min h s (List.mem_filter.mpr ⟨hs, hsm⟩)
    · rw [if_pos (by simp [he])] at h
      cases h
  · decide

/-- Witness for `schedule_tiebreak_most_specific` at the example
moment Saturday 10:05. -/
theorem schedule_tiebreak_witness :
    scheduleMatches 6 10 5 saturdayWindow = true ∧
    scheduleKeyLE saturdayWindow saturdayWindow = true := by
  have h := schedule_tiebreak_most_specific.1 true
    [weekendWindow, saturdayWindow] 6 10 5 saturdayWindow
    schedule_tiebreak_most_specific.2
  exact ⟨h.1, h.2 saturdayWindow (by decide) h.1⟩

/-- A selected row was a pending row of the queue date. -/
theorem mem_dequeueSelection {n d : Nat} {q : List QueueEntry}
    {x : QueueEntry} (hx : x ∈ dequeueSelection n d q) :
    x ∈ q ∧ isPendingFor d x = true := by
  unfold dequeueSelection at hx
  have h1 := List.mem_mergeSort.mp (List.mem_of_mem_take hx)
  exact ⟨(List.mem_filter.mp h1).1, (List.mem_filter.mp h1).2⟩

/-- The selection is (up to order) a sub-collection of the pending rows. -/
theorem dequeueSelection_subperm (n d : Nat) (q : List QueueEntry) :
    (dequeueSelection n d q).Subperm (q.filter (isPendingFor d)) :=
  (List.take_sublist _ _).subperm.trans
    (List.mergeSort_perm (q.filter (isPendingFor d)) dequeueLE).subperm

/-- A row of the claimed state whose id was selected carries the
`sent_to_n8n` status. -/
theorem claimRows_status {ids : List Nat} {now : Nat} {q : List QueueEntry}
    {x : QueueEntry} (hx : x ∈ claimRows ids now q)
    (hid : ids.contains x.id = true) : x.status = "sent_to_n8n" := by
  unfold claimRows at hx
  obtain ⟨r, _, hu⟩ := List.mem_map.mp hx
  by_cases hc : ids.contains r.id = true
  · rw [if_pos hc] at hu
    rw [← hu]
  · rw [if_neg hc] at hu
    subst hu
    exact absurd hid hc

/-- Counting pending rows after the claim: exactly the pending rows
whose id was not selected. -/
theorem claimRows_countP_pending (d : Nat) (ids : List Nat) (now : Nat)
    (q : List QueueEntry) :
    (claimRows ids now q).countP (isPendingFor d) =
      q.countP (fun r => isPendingFor d r && !(ids.contains r.id)) := by
  unfold claimRows
  rw [List.countP_map]
  refine List.countP_congr ?_
  intro r _
  show isPendingFor d (if ids.contains r.id then _ else r) = true ↔ _
  by_cases hc : ids.contains r.id = true
  · rw [if_pos hc, hc]
    simp [isPendingFor]
  · rw [if_neg hc]
    rw [Bool.not_eq_true] at hc
    rw [hc]
    simp

/-- `countP` splits along any second predicate. -/
theorem countP_split {α : Type} (p c : α → Bool) :
    ∀ l : List α, l.countP p =
      l.countP (fun a => p a && c a) + l.countP (fun a => p a && !(c a))
  | [] => rfl
  | a :: l => by
    by_cases hp : p a = true <;> by_cases hc : c a = true <;>
      simp [List.countP_cons, hp, hc, countP_split p c l] <;> omega

/-- The selection's size is bounded by the number of pending rows whose
id it contains. -/
theorem dequeueSelection_length_le_countP (n d : Nat) (q : List QueueEntry) :
    (dequeueSelection n d q).length ≤
      q.countP (fun r => isPendingFor d r &&
        ((dequeueSelection n d q).map (fun x => x.id)).contains r.id) := by
  set b := dequeueSelection n d q with hb
  set c : QueueEntry → Bool :=
    fun r => isPendingFor d r && (b.map (fun x => x.id)).contains r.id with hc
  have h1 : b.countP c = b.length := by
    rw [List.countP_eq_length]
    intro x hx
    rw [hc]
    have hpend := (mem_dequeueSelection (hb ▸ hx)).2
    simp [hpend]
    exact ⟨x, hx, rfl⟩
  have h2 : b.countP c ≤ (q.filter (isPendingFor d)).countP c :=
    (dequeueSelection_subperm n d q).countP_le c
  have h3 : (q.filter (isPendingFor d)).countP c = q.countP c := by
    rw [List.countP_filter]
    refine List.countP_congr ?_
    intro r _
    rw [hc]
    cases hP : isPendingFor d r <;> simp [hP]
  omega

/-- **C2**.  Since each `get_next_call_batch` statement is one atomic
claim-on-select (`FOR UPDATE SKIP LOCKED`), two overlapping invocations
for the same queue date serialize; for the serialized pair: the two
returned batches touch disjoint row ids, together they never exceed the
initially pending row count, and each invocation returns only rows that
were `pending` in its input state while leaving them `sent_to_n8n` in
its output state — in the same operation that selected them. -/
theorem getNextBatch_concurrent_partition (n d now1 now2 : Nat)
    (q : List QueueEntry) :
    (∀ x ∈ (getNextCallBatch n d now1 q).1,
      ∀ y ∈ (getNextCallBatch n d now2 (getNextCallBatch n d now1 q).2).1,
        x.id ≠ y.id) ∧
    (getNextCallBatch n d now1 q).1.length +
        (getNextCallBatch n d now2 (getNextCallBatch n d now1 q).2).1.length
      ≤ (q.filter (isPendingFor d)).length ∧
    (∀ x ∈ (getNextCallBatch n d now1 q).1,
      x ∈ q ∧ isPendingFor d x = true) ∧
    (∀ x ∈ (getNextCallBatch n d now1 q).2,
      ((getNextCallBatch n d now1 q).1.map (fun r => r.id)).contains x.id
        = true → x.status = "sent_to_n8n") ∧
    (∀ y ∈ (getNextCallBatch n d now2 (getNextCallBatch n d now1 q).2).1,
      y ∈ (getNextCallBatch n d now1 q).2 ∧ isPendingFor d y = true) := by
  have hfst : ∀ (m t : Nat) (l : List QueueEntry),
      (getNextCallBatch m d t l).1 = dequeueSelection m d l := fun _ _ _ => rfl
  have hsnd : ∀ (m t : Nat) (l : List QueueEntry),
      (getNextCallBatch m d t l).2 =
        claimRows ((dequeueSelection m d l).map (fun r => r.id)) t l :=
    fun _ _ _ => rfl
  set S1 := (getNextCallBatch n d now1 q).2 with hS1
  have hdisj : ∀ x ∈ (getNextCallBatch n d now1 q).1,
      ∀ y ∈ (getNextCallBatch n d now2 S1).1, x.id ≠ y.id := by
    intro x hx y hy heq
    rw [hfst] at hx hy
    have hy2 := mem_dequeueSelection hy
    have hyS1 : y ∈ claimRows ((dequeueSelection n d q).map (fun r => r.id))
        now1 q := by rw [hS1, hsnd] at hy2; exact hy2.1
    have hxid : x.id ∈ (dequeueSelection n d q).map (fun r => r.id) :=
      List.mem_map_of_mem _ hx
    have hyid : ((dequeueSelection n d q).map (fun r => r.id)).contains y.id
        = true := by
      rw [← heq]
      exact List.elem_iff.mpr hxid
    have hstat := claimRows_status hyS1 hyid
    have hpend := hy2.2
    rw [isPendingFor, hstat] at hpend
    simp at hpend
  have hlen : (getNextCallBatch n d now1 q).1.length +
      (getNextCallBatch n d now2 S1).1.length
        ≤ (q.filter (isPendingFor d)).length := by
    rw [hfst, hfst]
    have h1 := dequeueSelection_length_le_countP n d q
    have h2 : (dequeueSelection n d S1).length ≤
        S1.countP (isPendingFor d) := by
      have := (dequeueSelection_subperm n d S1).countP_le (isPendingFor d)
      have hall : (dequeueSelection n d S1).countP (isPendingFor d)
          = (dequeueSelection n d S1).length := by
        rw [List.countP_eq_length]
        exact fun x hx => (mem_dequeueSelection hx).2
      rw [← hall]
      calc (dequeueSelection n d S1).countP (isPendingFor d)
          ≤ (S1.filter (isPendingFor d)).countP (isPendingFor d) := this
        _ ≤ S1.countP (isPendingFor d) := by
            rw [List.countP_filter]
            refine Nat.le_of_eq (List.countP_congr ?_)
            intro r _
            cases hP : isPendingFor d r <;> simp [hP]
    have h3 : S1.countP (isPendingFor d) =
        q.countP (fun r => isPendingFor d r &&
          !(((dequeueSelection n d q).map (fun x => x.id)).contains r.id)) := by
      rw [hS1, hsnd]
      exact claimRows_countP_pending d _ now1 q
    have h4 := countP_split (isPendingFor d)
      (fun r => ((dequeueSelection n d q).map (fun x => x.id)).contains r.id) q
    rw [List.countP_eq_length_filter] at h4
    omega
  refine ⟨hdisj, hlen, ?_, ?_, ?_⟩
  · intro x hx
    rw [hfst] at hx
    exact mem_dequeueSelection hx
  · intro x hx hid
    rw [hS1, hsnd] at hx
    rw [hfst] at hid
    exact claimRows_status hx hid
  · intro y hy
    rw [hfst] at hy
    exact mem_dequeueSelection hy

/-- Two pending rows of the same queue date, used to witness `C2`. -/
def pendingRowA : QueueEntry :=
  { id := 1, queueDate := 1, contactId := "a", phoneNumber := "+447700900010",
    priorityScore := 90, status := "pending", sentToN8nAt := none,
    skipReason := none, callInitiatedAt := none, createdAt := 0 }

/-- Second pending row for the `C2` witness. -/
def pendingRowB : QueueEntry :=
  { id := 2, queueDate := 1, contactId := "b", phoneNumber := "+447700900011",
    priorityScore := 70, status := "pending", sentToN8nAt := none,
    skipReason := none, callInitiatedAt := none, createdAt := 1 }

/-- Witness for `getNextBatch_concurrent_partition` on a concrete
two-row queue. -/
theorem getNextBatch_concurrent_witness :
    (getNextCallBatch 1 1 10 [pendingRowA, pendingRowB]).1.length +
      (getNextCallBatch 1 1 11
        (getNextCallBatch 1 1 10 [pendingRowA, pendingRowB]).2).1.length
      ≤ ([pendingRowA, pendingRowB].filter (isPendingFor 1)).length ∧
    pendingRowA ∈ [pendingRowA, pendingRowB] ∧
      isPendingFor 1 pendingRowA = true :=
  ⟨(getNextBatch_concurrent_partition 1 1 10 11
      [pendingRowA, pendingRowB]).2.1, by decide, by decide⟩

/-- Number of queue entries loaded for a date. -/
def todayCount (today : Nat) (q : List QueueEntry) : Nat :=
  (q.filter (fun r => r.queueDate = today)).length

/-- The eligibility loop never collects more than the shortfall it was
asked for (when asked for at least one). -/
theorem collectEligible_length_le (canCall : String → Bool) :
    ∀ (l : List GHLContact) (n : Nat), 1 ≤ n →
      (collectEligible canCall n l).length ≤ n
  | [], n, _ => by simp [collectEligible]
  | c :: rest, n, hn => by
    rw [collectEligible]
    by_cases h8 : c.phone.length < 8
    · rw [if_pos h8]
      exact collectEligible_length_le canCall rest n hn
    · rw [if_neg h8]
      by_cases hcc : canCall (formatPhonePreload c.phone) = true
      · rw [if_pos hcc]
        by_cases h1 : n ≤ 1
        · rw [if_pos h1]
          simpa using hn
        · rw [if_neg h1]
          have := collectEligible_length_le canCall rest (n - 1) (by omega)
          simp only [List.length_cons]
          omega
      · rw [if_neg hcc]
        exact collectEligible_length_le canCall rest n hn

/-- The first contact the eligibility loop collects does not depend on
the shortfall it was asked for. -/
theorem collectEligible_head (canCall : String → Bool) :
    ∀ (l : List GHLContact) (n m : Nat) (x : GHLContact)
      (xs : List GHLContact), collectEligible canCall n l = x :: xs →
      ∃ ys, collectEligible canCall m l = x :: ys
  | [], n, m, x, xs, h => by simp [collectEligible] at h
  | c :: rest, n, m, x, xs, h => by
    rw [collectEligible] at h
    by_cases h8 : c.phone.length < 8
    · rw [if_pos h8] at h
      obtain ⟨ys, hys⟩ := collectEligible_head canCall rest n m x xs h
      refine ⟨ys, ?_⟩
      rw [collectEligible, if_pos h8]
      exact hys
    · rw [if_neg h8] at h
      by_cases hcc : canCall (formatPhonePreload c.phone) = true
      · rw [if_pos hcc] at h
        have hx : x = c := by
          by_cases h1 : n ≤ 1
          · rw [if_pos h1] at h
            exact (List.cons.injEq _ _ _ _ ▸ h).1.symm
          · rw [if_neg h1] at h
            cases h
            rfl
        subst hx
        by_cases hm : m ≤ 1
        · refine ⟨[], ?_⟩
          rw [collectEligible, if_neg h8, if_pos hcc, if_pos hm]
        · refine ⟨collectEligible canCall (m - 1) rest, ?_⟩
          rw [collectEligible, if_neg h8, if_pos hcc, if_neg hm]
      · rw [if_neg hcc] at h
        obtain ⟨ys, hys⟩ := collectEligible_head canCall rest n m x xs h
        refine ⟨ys, ?_⟩
        rw [collectEligible, if_neg h8, if_neg hcc]
        exact hys

/-- A successful plain insert appends exactly the new rows. -/
theorem insertQueueRows_eq_some {q rows q' : List QueueEntry}
    (h : insertQueueRows q rows = some q') : q' = q ++ rows := by
  unfold insertQueueRows at h
  by_cases hc : (rows.any (fun r => q.any (fun e =>
      decide (e.queueDate = r.queueDate ∧ e.contactId = r.contactId))) = true)
      ∨ ¬ (rows.map (fun r => (r.queueDate, r.contactId))).Nodup
  · rw [if_pos hc] at h
    cases h
  · rw [if_neg hc] at h
    cases h
    rfl

/-- A plain insert fails whenever some new row's key already exists. -/
theorem insertQueueRows_conflict {q rows : List QueueEntry}
    {r e : QueueEntry} (hr : r ∈ rows) (he : e ∈ q)
    (hd : e.queueDate = r.queueDate) (hcid : e.contactId = r.contactId) :
    insertQueueRows q rows = none := by
  unfold insertQueueRows
  rw [if_pos]
  left
  rw [List.any_eq_true]
  refine ⟨r, hr, ?_⟩
  rw [List.any_eq_true]
  exact ⟨e, he, by simp [hd, hcid]⟩

/-- Appending preload rows for the date adds their number to the date's
entry count. -/
theorem todayCount_append_preloadRows (today : Nat)
    (score : GHLContact → Nat) (q : List QueueEntry)
    (elig : List GHLContact) :
    todayCount today (q ++ elig.map (preloadRow score today)) =
      todayCount today q + elig.length := by
  unfold todayCount
  rw [List.filter_append, List.length_append]
  congr 1
  rw [List.filter_eq_self.mpr, List.length_map]
  intro a ha
  obtain ⟨c, _, hc⟩ := List.mem_map.mp ha
  rw [← hc]
  simp [preloadRow]

/-- Definitional restatement of `preloadDailyEdge` with the date count
named, for rewriting. -/
theorem preloadDailyEdge_def (canCall : String → Bool)
    (score : GHLContact → Nat) (contacts : List GHLContact) (today : Nat)
    (q : List QueueEntry) :
    preloadDailyEdge canCall score contacts today q =
      if 100 ≤ todayCount today q then
        (.alreadyLoaded (todayCount today q), q)
      else if contacts = [] then (.noContacts, q)
      else if collectEligible canCall (100 - todayCount today q) contacts
          = [] then
        (.loaded 0 (todayCount today q), q)
      else
        match insertQueueRows q
            ((collectEligible canCall (100 - todayCount today q)
              contacts).map (preloadRow score today)) with
        | none => (.insertFailed, q)
        | some q' =>
          (.loaded (collectEligible canCall (100 - todayCount today q)
            contacts).length (todayCount today q'), q') := rfl

/-- **C5**.  The daily preloader is idempotent with top-up semantics:
when the date already holds at least the target (100) entries it
returns at once with the existing count; it never pushes the date's
entry count past the target; and a second run against an unchanged
candidate set and cooldown verdict leaves the queue state — hence the
total entry count — exactly as one run left it (the second run either
returns early, collects nothing, or its insert fails wholesale on the
`(queue_date, contact_id)` unique key, adding no row). -/
theorem preload_idempotent (canCall : String → Bool)
    (score : GHLContact → Nat) (contacts : List GHLContact) (today : Nat)
    (q : List QueueEntry) :
    (preloadDailyEdge canCall score contacts today
      (preloadDailyEdge canCall score contacts today q).2).2
      = (preloadDailyEdge canCall score contacts today q).2 ∧
    (100 ≤ todayCount today q →
      preloadDailyEdge canCall score contacts today q
        = (.alreadyLoaded (todayCount today q), q)) ∧
    todayCount today (preloadDailyEdge canCall score contacts today q).2
      ≤ max (todayCount today q) 100 := by
  have hsame : ∀ st : List QueueEntry,
      (preloadDailyEdge canCall score contacts today st).2 = st →
      (preloadDailyEdge canCall score contacts today
        (preloadDailyEdge canCall score contacts today st).2).2
        = (preloadDailyEdge canCall score contacts today st).2 := by
    intro st h
    rw [h]
    exact h
  have hearly : 100 ≤ todayCount today q →
      preloadDailyEdge canCall score contacts today q
        = (.alreadyLoaded (todayCount today q), q) := by
    intro h100
    rw [preloadDailyEdge_def, if_pos h100]
  by_cases h100 : 100 ≤ todayCount today q
  · have h := hearly h100
    refine ⟨hsame q (by rw [h]), hearly, ?_⟩
    rw [h]
    exact Nat.le_max_left _ _
  · by_cases hnil : contacts = []
    · have h : preloadDailyEdge canCall score contacts today q
          = (.noContacts, q) := by
        rw [preloadDailyEdge_def, if_neg h100, if_pos hnil]
      refine ⟨hsame q (by rw [h]), hearly, ?_⟩
      rw [h]
      exact Nat.le_max_left _ _
    · by_cases helig : collectEligible canCall (100 - todayCount today q)
          contacts = []
      · have h : preloadDailyEdge canCall score contacts today q
            = (.loaded 0 (todayCount today q), q) := by
          rw [preloadDailyEdge_def, if_neg h100, if_neg hnil, if_pos helig]
        refine ⟨hsame q (by rw [h]), hearly, ?_⟩
        rw [h]
        exact Nat.le_max_left _ _
      · cases hins : insertQueueRows q
            ((collectEligible canCall (100 - todayCount today q)
              contacts).map (preloadRow score today)) with
        | none =>
          have h : preloadDailyEdge canCall score contacts today q
              = (.insertFailed, q) := by
            rw [preloadDailyEdge_def, if_neg h100, if_neg hnil,
              if_neg helig, hins]
          refine ⟨hsame q (by rw [h]), hearly, ?_⟩
          rw [h]
          exact Nat.le_max_left _ _
        | some q' =>
          have hq' := insertQueueRows_eq_some hins
          have h : (preloadDailyEdge canCall score contacts today q).2
              = q' := by
            rw [preloadDailyEdge_def, if_neg h100, if_neg hnil,
              if_neg helig, hins]
          have hk : todayCount today q' = todayCount today q +
              (collectEligible canCall (100 - todayCount today q)
                contacts).length := by
            rw [hq']
            exact todayCount_append_preloadRows today score q _
          have hkle : (collectEligible canCall (100 - todayCount today q)
              contacts).length ≤ 100 - todayCount today q :=
            collectEligible_length_le canCall contacts _ (by omega)
          refine ⟨?_, hearly, ?_⟩
          · rw [h]
            by_cases h100' : 100 ≤ todayCount today q'
            · rw [preloadDailyEdge_def, if_pos h100']
            · obtain ⟨x, xs, hx⟩ : ∃ x xs, collectEligible canCall
                  (100 - todayCount today q) contacts = x :: xs := by
                rcases hh : collectEligible canCall
                    (100 - todayCount today q) contacts with _ | ⟨x, xs⟩
                · exact absurd hh helig
                · exact ⟨x, xs, rfl⟩
              obtain ⟨ys, hys⟩ := collectEligible_head canCall contacts _
                (100 - todayCount today q') x xs hx
              have hxq' : preloadRow score today x ∈ q' := by
                rw [hq']
                refine List.mem_append_right _ ?_
                rw [hx]
                exact List.mem_map_of_mem _ (List.mem_cons_self x xs)
              have hins2 : insertQueueRows q'
                  ((collectEligible canCall (100 - todayCount today q')
                    contacts).map (preloadRow score today)) = none := by
                refine insertQueueRows_conflict ?_ hxq' rfl rfl
                rw [hys]
                exact List.mem_map_of_mem _ (List.mem_cons_self x ys)
              rw [preloadDailyEdge_def, if_neg h100', if_neg hnil,
                if_neg (by rw [hys]; simp), hins2]
          · rw [h, hk]
            have : todayCount today q + (collectEligible canCall
                (100 - todayCount today q) contacts).length ≤ 100 := by
              omega
            omega

/-- Witness for `preload_idempotent` at a concrete preloaded queue. -/
theorem preload_idempotent_witness :
    preloadDailyEdge (fun _ => true) (fun _ => 50) [] 1 (List.replicate 100 c8Row)
      = (.alreadyLoaded (todayCount 1 (List.replicate 100 c8Row)),
         List.replicate 100 c8Row) :=
  (preload_idempotent (fun _ => true) (fun _ => 50) [] 1
    (List.replicate 100 c8Row)).2.1 (by decide)

end AgentWizard
